import Mathlib

/-!
Verification of the oxpilot inference-orchestration core against its
natural-language specification.

The definitions below are a shallow embedding of the Rust sources:

* `src/token.rs`   — `token_to_text`
* `src/process.rs` — the decode loop `process` (prompt truncation, repeat
  penalty call, fragment emission, failure behaviour)
* `src/main.rs`    — the request-actor loop and the commit workflow
* `src/routes/completion.rs` and `src/types.rs` — the HTTP completion route
* `src/cmd.rs`     — the `Command::Prompt` payload

Machine integers (`usize`, `u32`, `u8`) are modelled as `Nat`; the float
logits are modelled as `ℚ` (the claims under scrutiny are about control
flow and which buffer is sampled, not about rounding). Strings are either
Lean `String`s or, where character-level reasoning is needed, `List Char`.
External collaborators (model forward pass, sampler, tokenizer encode) are
passed in as explicit function parameters, so a decode run is a pure
function of the injected collaborator behaviour.
-/

namespace Oxpilot

/-! ## Embedding of `src/token.rs` -/

/-- Character replacement performed by `text.replace(LOWER-ONE-EIGHTH-BLOCK, " ")`
in `token_to_text` (`src/token.rs` line 9): the sentencepiece word-boundary
character U+2581 becomes a space, every other character is unchanged. -/
def repl (c : Char) : Char := if c = '▁' then ' ' else c

/-- Replacement lifted to a whole token text (`String::replace` on a
single-character pattern is a character map). -/
def replaceLowLine (s : List Char) : List Char := s.map repl

/-- Embedding of `str::strip_prefix` over character lists: if `pat` is a
leading literal of `s`, return the remainder, else `none`. -/
def stripLeadingLit : List Char → List Char → Option (List Char)
  | [], s => some s
  | _ :: _, [] => none
  | p :: ps, c :: cs => if c = p then stripLeadingLit ps cs else none

/-- Embedding of `str::strip_suffix` over character lists, via reversal. -/
def stripTrailingLit (pat s : List Char) : Option (List Char) :=
  (stripLeadingLit pat.reverse s.reverse).map List.reverse

/-- Value of one hexadecimal digit, as used by `u8::from_str_radix(_, 16)`. -/
def hexDigitVal (c : Char) : Option Nat :=
  if '0' ≤ c ∧ c ≤ '9' then some (c.toNat - '0'.toNat)
  else if 'a' ≤ c ∧ c ≤ 'f' then some (c.toNat - 'a'.toNat + 10)
  else if 'A' ≤ c ∧ c ≤ 'F' then some (c.toNat - 'A'.toNat + 10)
  else none

/-- Accumulating digit loop of `u8::from_str_radix(_, 16)`: multiply by the
radix and add each digit, failing on a non-digit or on overflow past the
`u8` range. -/
def parseDigitsGo : List Char → Nat → Option Nat
  | [], acc => some acc
  | c :: cs, acc =>
    match hexDigitVal c with
    | none => none
    | some d => if acc * 16 + d ≤ 255 then parseDigitsGo cs (acc * 16 + d) else none

/-- Digit sequence of `u8::from_str_radix(_, 16)`: at least one digit is
required. -/
def parseDigits : List Char → Option Nat
  | [] => none
  | c :: cs => parseDigitsGo (c :: cs) 0

/-- Embedding of `u8::from_str_radix(s, 16)`: an optional sign (a leading
minus only succeeds when the digits denote zero, matching the checked
subtraction in the unsigned implementation), then at least one hex digit,
with the result bounded by 255. -/
def parseU8Hex : List Char → Option Nat
  | [] => none
  | c :: cs =>
    if c = '+' then parseDigits cs
    else if c = '-' then
      match parseDigits cs with
      | some 0 => some 0
      | _ => none
    else parseDigits (c :: cs)

/-- Byte-form recognition pipeline of `token_to_text` (`src/token.rs` lines
10-13): strip a literal leading "<0x", strip a literal trailing ">", parse
the middle as a hexadecimal `u8`. -/
def byteParse (s : List Char) : Option Nat :=
  (stripLeadingLit ("<0x".toList) s).bind fun t =>
    (stripTrailingLit [ '>' ] t).bind parseU8Hex

/-- Embedding of `token_to_text` (`src/token.rs`): the tokenizer collaborator
`idToToken` stands for `Tokenizer::id_to_token`. When it knows no token for
the id the result is the empty string; otherwise the token text has U+2581
replaced by spaces, and if the replaced text has the byte form it denotes
and the denoted byte is an ASCII code point, the single character is
returned instead (`char::from_u32` always succeeds below 256, and
`char::is_ascii` is the bound 128). -/
def tokenToText (idToToken : Nat → Option (List Char)) (nextToken : Nat) : List Char :=
  match idToToken nextToken with
  | none => []
  | some text =>
    let text2 := replaceLowLine text
    match byteParse text2 with
    | none => text2
    | some a => if a < 128 then [Char.ofNat a] else text2

/-- Description of `token_to_text` in the words of the specification claim:
empty string when the tokenizer has no token for the id; the single ASCII
character when the token text has the byte form and the hex value is an
ASCII code point; otherwise the token text with every U+2581 replaced by a
space. The byte-form test here reads the original token text, where the
code first replaces U+2581; the theorem below shows the two agree. -/
def tokenToTextSpec (idToToken : Nat → Option (List Char)) (nextToken : Nat) : List Char :=
  match idToToken nextToken with
  | none => []
  | some text =>
    match byteParse text with
    | none => replaceLowLine text
    | some a => if a < 128 then [Char.ofNat a] else replaceLowLine text

/-! ## Embedding of the decode loop in `src/process.rs` -/

/-- Maximum sequence length of the quantized llama model,
`candle_transformers::models::quantized_llama::MAX_SEQ_LEN` (an external
constant of the inference engine; its value is 4096). -/
def MAX_SEQ_LEN : Nat := 4096

/-- Prompt truncation of `process` (`src/process.rs` lines 61-66): when the
prompt length plus the iteration budget exceeds `MAX_SEQ_LEN - 10`, the code
computes `to_remove` and keeps the slice
`prompt_tokens[prompt_tokens.len().saturating_sub(to_remove)..]`. Rust
`usize::saturating_sub` is `Nat` subtraction. -/
def truncatePrompt (promptTokens : List Nat) (toSample : Nat) : List Nat :=
  if promptTokens.length + toSample > MAX_SEQ_LEN - 10 then
    let toRemove := promptTokens.length + toSample + 10 - MAX_SEQ_LEN
    promptTokens.drop (promptTokens.length - toRemove)
  else promptTokens

/-- Number of token positions fed to `Model::forward` during one run of
`process`: the (possibly truncated) prompt is fed at positions
`0..len` by the first forward pass (`src/process.rs` line 74), and each of
the `to_sample` loop iterations feeds one token at position
`prompt_tokens.len() + index` (`src/process.rs` line 86). -/
def totalFed (promptTokens : List Nat) (toSample : Nat) : Nat :=
  (truncatePrompt promptTokens toSample).length + toSample

/-- Repeat-penalty arithmetic of the inference engine,
`candle_transformers::utils::apply_repeat_penalty` called at
`src/process.rs` lines 90-94. Modelled from the spec: for each token id
appearing in the context window, its logit is divided by the penalty factor
when non-negative and multiplied by it when negative (sign-preserving
division); other entries are unchanged. The function returns a new logit
buffer and leaves its input untouched. -/
def applyRepeatPenaltyGo (penalty : ℚ) (context : List Nat) : Nat → List ℚ → List ℚ
  | _, [] => []
  | i, x :: xs =>
    (if i ∈ context then (if 0 ≤ x then x / penalty else x * penalty) else x) ::
      applyRepeatPenaltyGo penalty context (i + 1) xs

/-- Repeat penalty applied to a whole logit vector, entry `i` holding the
logit of token id `i`. -/
def applyRepeatPenalty (logits : List ℚ) (penalty : ℚ) (context : List Nat) : List ℚ :=
  applyRepeatPenaltyGo penalty context 0 logits

/-- Logit buffer actually handed to `logits_processor.sample` in one loop
iteration of `process` (`src/process.rs` lines 88-95): the code computes
`apply_repeat_penalty(&logits, repeat_penalty, &all_tokens[start_at..])`
with `start_at = all_tokens.len().saturating_sub(repeat_last_n)`, binds the
returned buffer to `_` (discarding it), and then samples from the original
`logits`. -/
def decodeStepSampledLogits (logits : List ℚ) (penalty : ℚ)
    (allTokens : List Nat) (repeatLastN : Nat) : List ℚ :=
  let startAt := allTokens.length - repeatLastN
  let _penalized := applyRepeatPenalty logits penalty (allTokens.drop startAt)
  logits

/-- Generation loop of `process` (`src/process.rs` lines 79-99), with the
composite forward-pass-and-sampler collaborator abstracted as `oracle`
(given the `all_tokens` history so far, the token id the sampler returns
for this step) and token decoding abstracted as `tokenText` (the
`token_to_text` call at line 97). Each iteration samples one token, appends
it to the history and sends its text on the responder; the loop runs
exactly `to_sample` iterations and inspects no stop condition. The result
is the pair (fragments sent this loop, tokens sampled this loop). -/
def decodeLoop (oracle : List Nat → Nat) (tokenText : Nat → String) :
    Nat → List Nat → List String × List Nat
  | 0, _ => ([], [])
  | n + 1, allTokens =>
    let next := oracle allTokens
    let rest := decodeLoop oracle tokenText n (allTokens ++ [next])
    (tokenText next :: rest.1, next :: rest.2)

/-- Fragments sent on the responder channel by one run of `process`
(`src/process.rs` lines 67-99): the first token is sampled from the
full-prompt forward pass (line 76) and pushed into `all_tokens` (line 78),
and then the loop emits one fragment per iteration. Nothing outside the
loop performs a `responder.send`. -/
def processFragments (oracle : List Nat → Nat) (tokenText : Nat → String)
    (toSample : Nat) : List String :=
  (decodeLoop oracle tokenText toSample [oracle []]).1

/-- Final `all_tokens` history of one run of `process`: the first sampled
token followed by the tokens sampled inside the loop. -/
def processAllTokens (oracle : List Nat → Nat) (tokenText : Nat → String)
    (toSample : Nat) : List Nat :=
  oracle [] :: (decodeLoop oracle tokenText toSample [oracle []]).2

/-! ## Failure behaviour of `process` and the request actor (`src/main.rs`) -/

/-- Collaborator behaviour injected into one `Command::Prompt` request:
the result of `tokenizer.encode` for its prompt (`none` models an `Err`),
whether the forward pass at a given position succeeds (`false` models an
`Err` from the engine), the sampler oracle, and token decoding. -/
structure RequestBehavior where
  encodeRes : Option (List Nat)
  forwardOk : Nat → Bool
  oracle : List Nat → Nat
  tokenText : Nat → String

/-- Outcome of one `process` call: either the loop ran to its natural end
and the listed fragments were sent, or the task panicked. -/
inductive RunOutcome where
  | completed : List String → RunOutcome
  | panicked : RunOutcome
deriving DecidableEq

/-- Loop of `process` with fallible forward passes: iteration `index` calls
`forward` at position `promptLen + index` (`src/process.rs` line 86) and
`.unwrap()`s the result, so a forward-pass error panics the whole task. -/
def decodeLoopF (rb : RequestBehavior) (promptLen : Nat) :
    Nat → Nat → List Nat → List String → RunOutcome
  | 0, _, _, acc => .completed acc
  | n + 1, index, allTokens, acc =>
    if rb.forwardOk (promptLen + index) then
      let next := rb.oracle allTokens
      decodeLoopF rb promptLen n (index + 1) (allTokens ++ [next])
        (acc ++ [rb.tokenText next])
    else .panicked

/-- Outcome of one `process` call (`src/process.rs` lines 42-100) under the
injected collaborator behaviour: a tokenizer encode error hits the
`todo!()` at line 56, which panics; the first forward pass at position 0
(line 74) and every loop forward pass are `.unwrap()`ed, so an engine error
panics; otherwise the run completes with its fragments. -/
def processRunF (rb : RequestBehavior) (toSample : Nat) : RunOutcome :=
  match rb.encodeRes with
  | none => .panicked
  | some tokens =>
    let promptTokens := truncatePrompt tokens toSample
    if rb.forwardOk 0 then
      decodeLoopF rb promptTokens.length toSample 0 [rb.oracle []] []
    else .panicked

/-- Observable history of the request-actor task from the queue consumer
view: each command either gets served (its fragment list was produced and
its responder closed) or the actor task crashed. -/
inductive ActorEvent where
  | served : List String → ActorEvent
  | crashed : ActorEvent
deriving DecidableEq

/-- Request-actor loop of `src/main.rs` lines 115-149: commands are taken
from the queue strictly in order and `process` is awaited for each; a panic
inside `process` propagates out of the actor task body, so the
`while let Some(cmd) = rx.recv().await` loop is never resumed and every
later command is left unserved. -/
def actorRun (toSample : Nat) : List RequestBehavior → List ActorEvent
  | [] => []
  | rb :: rest =>
    match processRunF rb toSample with
    | .completed frags => .served frags :: actorRun toSample rest
    | .panicked => [.crashed]

/-! ## Embedding of `src/types.rs` and `src/routes/completion.rs` -/

/-- Embedding of the `LogitBias` enum of `src/types.rs`. -/
inductive LogitBias where
  | tokenIds : LogitBias
  | tokens : LogitBias
deriving DecidableEq

/-- Embedding of the `CompletionRequest` deserialization target of
`src/types.rs`: every OpenAI-compatible field is optional. Floats are
modelled as `ℚ` and the `logit_bias` map as an association list. -/
structure CompletionRequest where
  prompt : Option String := none
  model : Option String := none
  suffix : Option String := none
  maxTokens : Option Nat := none
  temperature : Option ℚ := none
  topP : Option ℚ := none
  mirostatMode : Option Nat := none
  mirostatTau : Option ℚ := none
  mirostatEta : Option ℚ := none
  echo : Option Bool := none
  stream : Option Bool := none
  stop : Option (List String) := none
  logprobs : Option Nat := none
  presencePenalty : Option ℚ := none
  frequencyPenalty : Option ℚ := none
  logitBias : Option (List (String × ℚ)) := none
  topK : Option Nat := none
  repeatPenalty : Option ℚ := none
  lastNTokens : Option Nat := none
  logitBiasType : Option LogitBias := none
  n : Option Nat := none
  bestOf : Option Nat := none
  seed : Option Nat := none
  user : Option String := none
deriving DecidableEq

/-- Payload of the `Command::Prompt` the completion route actually
constructs (`src/routes/completion.rs` lines 25-37): the prompt defaulted
to the empty string and `temperature` defaulted to 1.0. The `responder`
channel half is not data and is omitted; no other request field is placed
in the command. -/
structure PromptCommand where
  prompt : String
  temperature : ℚ
deriving DecidableEq

/-- Command construction of the completion route (`src/routes/completion.rs`
lines 25-37): `prompt` from `body.prompt.unwrap_or("")` and `temperature`
from `body.temperature.unwrap_or(1.0)`. -/
def buildPromptCommand (body : CompletionRequest) : PromptCommand :=
  { prompt := body.prompt.getD "", temperature := body.temperature.getD 1 }

/-- Embedding of the `Choice` envelope element of `src/types.rs`. The
`logprobs` payload is never constructed by the route, so its type is left
abstract as `Unit`. -/
structure Choice where
  text : String
  index : Nat
  logprobs : Option Unit
  finishReason : Option String
deriving DecidableEq

/-- Embedding of the `Usage` envelope element of `src/types.rs`. -/
structure Usage where
  promptTokens : Nat
  completionTokens : Nat
  totalTokens : Nat
deriving DecidableEq

/-- Embedding of the `Completion` envelope of `src/types.rs`. -/
structure Completion where
  id : String
  choices : List Choice
  created : Nat
  model : String
  systemFingerprint : String
  object : String
  usage : Usage
deriving DecidableEq

/-- Envelope built for one received fragment by the completion route
(`src/routes/completion.rs` lines 48-74): constant id "cmpl-", object
"text_completion", the wall-clock `created` stamp, the request model
defaulted to "unknown", exactly one choice carrying the fragment with
index 0, no logprobs and `finish_reason: Some("stop")`, zero usage and an
empty fingerprint. -/
def makeCompletion (bodyModel : Option String) (created : Nat) (text : String) : Completion :=
  { id := "cmpl-"
    choices := [{ text := text, index := 0, logprobs := none, finishReason := some "stop" }]
    created := created
    model := bodyModel.getD "unknown"
    systemFingerprint := ""
    object := "text_completion"
    usage := { promptTokens := 0, completionTokens := 0, totalTokens := 0 } }

/-- SSE event loop of the completion route (`src/routes/completion.rs`
lines 40-76), from event index `i`: one event is yielded per fragment
received on the responder channel, each carrying a fresh `created` stamp
taken from the clock `createdAt`. -/
def sseStreamFrom (bodyModel : Option String) (createdAt : Nat → Nat) :
    Nat → List String → List Completion
  | _, [] => []
  | i, f :: rest =>
    makeCompletion bodyModel (createdAt i) f :: sseStreamFrom bodyModel createdAt (i + 1) rest

/-- Whole SSE event list produced for one completion request whose
fragment stream is `frags`. -/
def sseStream (bodyModel : Option String) (createdAt : Nat → Nat)
    (frags : List String) : List Completion :=
  sseStreamFrom bodyModel createdAt 0 frags

/-! ## Embedding of the commit workflow of `src/main.rs` -/

/-- Conventional-commit type keywords of the validation regex at
`src/main.rs` line 208. -/
def conventionalTypes : List (List Char) :=
  ["build".toList, "chore".toList, "ci".toList, "docs".toList, "feat".toList,
   "fix".toList, "perf".toList, "refactor".toList, "revert".toList,
   "style".toList, "test".toList]

/-- ASCII word character, the `\w` class of the validation regex restricted
to the ASCII range (all strings the workflow validates here are ASCII). -/
def isWordChar (c : Char) : Bool := c.isAlpha || c.isDigit || c = '_'

/-- Character class of the optional scope group `(\([\w\-\.]+\))?` of the
validation regex. -/
def isScopeChar (c : Char) : Bool := isWordChar c || c = '-' || c = '.'

/-- Matcher for the part of the validation regex after the type keyword:
an optional parenthesised non-empty scope over `isScopeChar`, an optional
exclamation mark, then the literal ": " followed by at least one `[\w ]`
character; the trailing `([\s\S]*)` group consumes anything. The
closing parenthesis and the characters of ": " are outside every
preceding class, so this deterministic scan is the existence of a match. -/
def matchAfterType (s : List Char) : Bool :=
  let afterScope : List Char → Bool := fun r =>
    match r with
    | ':' :: ' ' :: c :: _ => isWordChar c || c = ' '
    | '!' :: ':' :: ' ' :: c :: _ => isWordChar c || c = ' '
    | _ => false
  match s with
  | '(' :: r =>
    let inner := r.takeWhile isScopeChar
    match r.drop inner.length with
    | ')' :: r2 => decide (inner ≠ []) && afterScope r2
    | _ => false
  | r => afterScope r

/-- Embedding of `regex.is_match(&commit_message)` for the anchored
validation regex at `src/main.rs` line 208: some conventional type keyword
is a leading literal of the message and the remainder matches the scope,
bang and ": " structure. -/
def isConventional (s : String) : Bool :=
  conventionalTypes.any fun t =>
    match stripLeadingLit t s.toList with
    | some r => matchAfterType r
    | none => false

/-- Temperature of the first commit-message generation
(`src/main.rs` line 194). -/
def firstCommitTemperature : ℚ := 4 / 5

/-- Temperature of the single retry generation (`src/main.rs` line 218). -/
def retryCommitTemperature : ℚ := 6 / 5

/-- Embedding of `str::trim`: drop whitespace characters from both ends of
the character list. -/
def trimChars (s : List Char) : List Char :=
  ((s.dropWhile Char.isWhitespace).reverse.dropWhile Char.isWhitespace).reverse

/-- Concatenation of one fragment stream into a raw commit-message
candidate (`src/main.rs` lines 200-206 and 223-229): fragments are
appended in arrival order. -/
def collectRaw (frags : List String) : String := String.join frags

/-- First collected commit-message candidate after the trim at
`src/main.rs` line 207 (the retry candidate is used untrimmed). -/
def collectMessage (frags : List String) : String :=
  String.mk (trimChars (collectRaw frags).toList)

/-- Commit workflow of `src/main.rs` lines 188-231, with generation
abstracted as `gen` (the fragment stream produced when a prompt is
submitted at a given temperature): generate once at temperature 0.8;
when the collected message fails the validation regex, generate exactly
once more at temperature 1.2 and proceed with that second message with no
further validation; when it passes, proceed immediately. The second
component counts the retries performed. -/
def commitWorkflow (gen : ℚ → List String) : String × Nat :=
  let c1 := collectMessage (gen firstCommitTemperature)
  if isConventional c1 then (c1, 0)
  else (collectRaw (gen retryCommitTemperature), 1)

/-! ## Helper lemmas -/

/-- Characters other than U+2581 are unchanged by the replacement. -/
lemma repl_eq_of_ne (c : Char) (h : c ≠ '▁') : repl c = c := by
  simp [repl, h]

/-- For a target character fixed by the replacement and different from the
space it introduces, replacement neither creates nor destroys equality
with that character. -/
lemma repl_eq_iff (p : Char) (hp : repl p = p) (hsp : p ≠ ' ') (c : Char) :
    repl c = p ↔ c = p := by
  constructor
  · intro h
    by_cases hc : c = '▁'
    · subst hc
      exact absurd h.symm hsp
    · rwa [repl_eq_of_ne c hc] at h
  · intro h
    subst h
    exact hp

/-- Hex-digit classification is invariant under the U+2581 replacement
(neither U+2581 nor the space is a hex digit). -/
lemma hexDigitVal_repl (c : Char) : hexDigitVal (repl c) = hexDigitVal c := by
  by_cases h : c = '▁'
  · subst h
    decide
  · rw [repl_eq_of_ne c h]

/-- The digit loop of the hex parser is invariant under the replacement. -/
lemma parseDigitsGo_map : ∀ (s : List Char) (acc : Nat),
    parseDigitsGo (s.map repl) acc = parseDigitsGo s acc := by
  intro s
  induction s with
  | nil => intro acc; rfl
  | cons c cs ih =>
    intro acc
    simp only [List.map_cons, parseDigitsGo, hexDigitVal_repl]
    split
    · rfl
    · split
      · exact ih _
      · rfl

/-- The digit sequence of the hex parser is invariant under the
replacement. -/
lemma parseDigits_map : ∀ s : List Char, parseDigits (s.map repl) = parseDigits s := by
  intro s
  cases s with
  | nil => rfl
  | cons c cs =>
    simp only [List.map_cons, parseDigits]
    exact parseDigitsGo_map (c :: cs) 0

/-- The `u8` hex parser is invariant under the replacement. -/
lemma parseU8Hex_map : ∀ s : List Char, parseU8Hex (s.map repl) = parseU8Hex s := by
  intro s
  cases s with
  | nil => rfl
  | cons c cs =>
    simp only [List.map_cons, parseU8Hex]
    have hplus : repl c = '+' ↔ c = '+' := repl_eq_iff '+' (by decide) (by decide) c
    have hminus : repl c = '-' ↔ c = '-' := repl_eq_iff '-' (by decide) (by decide) c
    by_cases h1 : c = '+'
    · rw [if_pos (hplus.mpr h1), if_pos h1]
      exact parseDigits_map cs
    · rw [if_neg (fun h => h1 (hplus.mp h)), if_neg h1]
      by_cases h2 : c = '-'
      · rw [if_pos (hminus.mpr h2), if_pos h2, parseDigits_map cs]
      · rw [if_neg (fun h => h2 (hminus.mp h)), if_neg h2]
        have := parseDigits_map (c :: cs)
        simpa using this

/-- Stripping a leading literal whose characters are fixed by the
replacement and are not spaces commutes with the replacement. -/
lemma stripLeadingLit_map : ∀ pat : List Char,
    (∀ p ∈ pat, repl p = p ∧ p ≠ ' ') →
    ∀ s : List Char,
      stripLeadingLit pat (s.map repl) = (stripLeadingLit pat s).map (List.map repl) := by
  intro pat
  induction pat with
  | nil => intro _ s; simp [stripLeadingLit]
  | cons p ps ih =>
    intro hpat s
    cases s with
    | nil => simp [stripLeadingLit]
    | cons c cs =>
      have hp := hpat p (by simp)
      have hiff : repl c = p ↔ c = p := repl_eq_iff p hp.1 hp.2 c
      simp only [List.map_cons, stripLeadingLit]
      by_cases hcp : c = p
      · rw [if_pos (hiff.mpr hcp), if_pos hcp]
        exact ih (fun q hq => hpat q (List.mem_cons_of_mem _ hq)) cs
      · rw [if_neg (fun h => hcp (hiff.mp h)), if_neg hcp]
        rfl

/-- Stripping a trailing literal whose characters are fixed by the
replacement and are not spaces commutes with the replacement. -/
lemma stripTrailingLit_map (pat : List Char)
    (hpat : ∀ p ∈ pat, repl p = p ∧ p ≠ ' ') (s : List Char) :
    stripTrailingLit pat (s.map repl) = (stripTrailingLit pat s).map (List.map repl) := by
  unfold stripTrailingLit
  rw [show (s.map repl).reverse = s.reverse.map repl from (List.map_reverse repl s).symm]
  rw [stripLeadingLit_map pat.reverse (fun p hp => hpat p (List.mem_reverse.mp hp)) s.reverse]
  cases stripLeadingLit pat.reverse s.reverse with
  | none => rfl
  | some t =>
    simp [List.map_reverse]

/-- Byte-form recognition (strip "<0x", strip ">", parse hex) gives the
same answer on the token text and on the replaced token text: the pattern
characters and the hex alphabet exclude both U+2581 and the space. -/
lemma byteParse_replace (s : List Char) : byteParse (replaceLowLine s) = byteParse s := by
  unfold byteParse replaceLowLine
  rw [stripLeadingLit_map ("<0x".toList) (by decide) s]
  cases stripLeadingLit ("<0x".toList) s with
  | none => rfl
  | some t =>
    simp only [Option.map_some', Option.some_bind]
    rw [stripTrailingLit_map [ '>' ] (by decide) t]
    cases stripTrailingLit [ '>' ] t with
    | none => rfl
    | some v =>
      simp only [Option.map_some', Option.some_bind]
      rw [parseU8Hex_map v]

/-- Fragments produced by the decode loop are exactly the decoded texts of
the tokens sampled inside the loop, and the loop samples one token per
iteration. -/
lemma decodeLoop_spec (oracle : List Nat → Nat) (tokenText : Nat → String) :
    ∀ (n : Nat) (h : List Nat),
      (decodeLoop oracle tokenText n h).1
        = (decodeLoop oracle tokenText n h).2.map tokenText ∧
      (decodeLoop oracle tokenText n h).2.length = n := by
  intro n
  induction n with
  | zero => intro h; simp [decodeLoop]
  | succ k ih =>
    intro h
    simp only [decodeLoop, List.map_cons, List.length_cons]
    exact ⟨by rw [(ih _).1], by rw [(ih _).2]⟩

/-- Shape of every SSE event produced by the completion route, from any
starting event index: one singleton choice list carrying the fragment text
and the constant finish reason. -/
lemma sseStreamFrom_shape (m : Option String) (ca : Nat → Nat) :
    ∀ (frags : List String) (i : Nat),
      ((sseStreamFrom m ca i frags).map fun c => c.choices.map Choice.text)
          = frags.map (fun f => [f]) ∧
      ((sseStreamFrom m ca i frags).map fun c => c.choices.map Choice.finishReason)
          = frags.map (fun _ => [some "stop"]) := by
  intro frags
  induction frags with
  | nil => intro i; simp [sseStreamFrom]
  | cons f rest ih =>
    intro i
    simp only [sseStreamFrom, makeCompletion, List.map_cons, List.map_nil]
    exact ⟨by rw [(ih _).1], by rw [(ih _).2]⟩

/-! ## Claim theorems -/

/-- Claim C1 (code bug). The claim says a tokenizer encode failure or a
forward-pass failure aborts only that request, the RequestActor does not
crash and a subsequently queued command still completes. The code instead
panics — `todo!()` on an encode error (`src/process.rs` line 56), bare
`.unwrap()` on a forward-pass error (lines 74 and 87) — which kills the
actor task, so a healthy command queued behind the failing one is never
served, while the same healthy command alone completes normally. -/
theorem actor_crash_propagates_past_failed_request :
    actorRun 1 [⟨none, fun _ => true, fun _ => 0, fun _ => "a"⟩,
                ⟨some [1, 2], fun _ => true, fun _ => 5, fun _ => "b"⟩]
        = [ActorEvent.crashed] ∧
    actorRun 1 [⟨some [1, 2], fun _ => false, fun _ => 5, fun _ => "b"⟩,
                ⟨some [1, 2], fun _ => true, fun _ => 5, fun _ => "b"⟩]
        = [ActorEvent.crashed] ∧
    actorRun 1 [⟨some [1, 2], fun _ => true, fun _ => 5, fun _ => "b"⟩]
        = [ActorEvent.served ["b"]] :=
  ⟨rfl, rfl, rfl⟩

/-- Claim C2 (code bug). The claim says the repeat penalty is applied to
the logits the sampler draws from, decreasing the relative likelihood of
window tokens for penalty > 1. In the code the buffer returned by
`apply_repeat_penalty` is bound to `_` and discarded (`src/process.rs`
lines 90-94), so the sampler draws from the untouched logits: with logits
[3, 1], penalty 2 and token 0 in the window, the penalized buffer would be
[3/2, 1] but the sampled buffer is still [3, 1]. -/
theorem repeat_penalty_result_discarded :
    decodeStepSampledLogits [3, 1] 2 [0] 64 = [3, 1] ∧
    applyRepeatPenalty [3, 1] 2 [0] = [3 / 2, 1] ∧
    decodeStepSampledLogits [3, 1] 2 [0] 64 ≠ applyRepeatPenalty [3, 1] 2 [0] := by
  refine ⟨rfl, ?_, ?_⟩
  · norm_num [applyRepeatPenalty, applyRepeatPenaltyGo]
  · norm_num [decodeStepSampledLogits, applyRepeatPenalty, applyRepeatPenaltyGo]

/-- Claim C3 (code bug). The claim says the loop stops, emitting nothing,
when the sampled id equals the configured end-of-sequence id or the hard
stop sentinel. The loop in `src/process.rs` lines 79-99 checks no stop
condition at all (the 9-parameter `process` does not even receive the
`eos_token` that `src/main.rs` line 142 passes): with a sampler that
returns id 2 (the llama `</s>` id) at every step and `to_sample = 3`, a
fragment is emitted for the eos step and for every step after it. -/
theorem decode_loop_never_stops_on_eos :
    processFragments (fun _ => 2) (fun _ => "x") 3 = ["x", "x", "x"] ∧
    processAllTokens (fun _ => 2) (fun _ => "x") 3 = [2, 2, 2, 2] :=
  ⟨rfl, rfl⟩

/-- Claim C4 (code bug). The claim says the token positions fed to
`forward` (truncated prompt plus generated tokens) never exceed the model
maximum sequence length. The truncation at `src/process.rs` lines 61-66
keeps the last `to_remove` tokens instead of removing the first
`to_remove`: an 8200-token prompt with `to_sample = 0` keeps 4114 prompt
tokens, so 4114 positions are fed to `forward`, exceeding
`MAX_SEQ_LEN = 4096`. -/
theorem truncated_run_exceeds_max_seq_len :
    totalFed (List.replicate 8200 0) 0 = 4114 ∧
    MAX_SEQ_LEN = 4096 ∧
    totalFed (List.replicate 8200 0) 0 > MAX_SEQ_LEN := by
  have hlen : (List.replicate 8200 (0 : Nat)).length = 8200 := List.length_replicate 8200 0
  have h1 : totalFed (List.replicate 8200 0) 0 = 4114 := by
    rw [totalFed, truncatePrompt, if_pos]
    · rw [List.length_drop, hlen]
      norm_num [MAX_SEQ_LEN]
    · rw [hlen]
      norm_num [MAX_SEQ_LEN]
  refine ⟨h1, rfl, ?_⟩
  rw [h1]
  norm_num [MAX_SEQ_LEN]

/-- Claim C5, counterexample. The claim says the first token sampled from
the full-prompt forward pass is emitted immediately and a run with a zero
generation budget emits exactly one fragment. In the code the first
sampled token is only pushed into `all_tokens` (`src/process.rs` line 78)
and never sent: with `to_sample = 0` the history holds the first sampled
token yet the responder receives no fragment at all. -/
theorem zero_budget_run_emits_no_fragment :
    processAllTokens (fun _ => 7) (fun _ => "a") 0 = [7] ∧
    processFragments (fun _ => 7) (fun _ => "a") 0 = [] :=
  ⟨rfl, rfl⟩

/-- Claim C5 as amended. The first token sampled from the full-prompt
forward pass is appended to the history but never emitted; the run emits
exactly one fragment per loop iteration — `to_sample` fragments in total,
the decoded texts of every sampled token except the first — and a run with
a zero budget emits no fragment. -/
theorem fragments_are_loop_tokens_only :
    ∀ (oracle : List Nat → Nat) (tokenText : Nat → String) (toSample : Nat),
      processFragments oracle tokenText toSample
          = (processAllTokens oracle tokenText toSample).tail.map tokenText ∧
      (processFragments oracle tokenText toSample).length = toSample ∧
      (processAllTokens oracle tokenText toSample).length = toSample + 1 := by
  intro oracle tokenText toSample
  have h := decodeLoop_spec oracle tokenText toSample [oracle []]
  refine ⟨?_, ?_, ?_⟩
  · simpa [processFragments, processAllTokens] using h.1
  · simp [processFragments, h.1, h.2]
  · simp [processAllTokens, h.2]

/-- Claim C6 (confirmed). Whenever the encoded prompt length plus the
generation budget overflows the context window and truncation fires, the
kept prompt tokens are a contiguous suffix of the original prompt token
sequence: tokens are dropped only from the front, never from the back. -/
theorem truncation_keeps_contiguous_suffix :
    ∀ (promptTokens : List Nat) (toSample : Nat),
      promptTokens.length + toSample > MAX_SEQ_LEN - 10 →
      List.IsSuffix (truncatePrompt promptTokens toSample) promptTokens := by
  intro p t h
  rw [truncatePrompt, if_pos h]
  exact List.drop_suffix _ _

/-- Witness for the suffix theorem at a concrete overflowing prompt. -/
theorem truncation_keeps_contiguous_suffix_witness :
    (List.replicate 5000 (3 : Nat)).length + 0 > MAX_SEQ_LEN - 10 ∧
    List.IsSuffix (truncatePrompt (List.replicate 5000 3) 0) (List.replicate 5000 3) :=
  ⟨by rw [List.length_replicate]; norm_num [MAX_SEQ_LEN],
   truncation_keeps_contiguous_suffix (List.replicate 5000 3) 0
     (by rw [List.length_replicate]; norm_num [MAX_SEQ_LEN])⟩

/-- Claim C7, counterexample. The claim says `top_p` (together with
`temperature`) is wired into the generation command. Two request bodies
differing only in `top_p` produce identical commands, so `top_p` has no
effect on the command the route sends. -/
theorem top_p_not_wired_to_command :
    buildPromptCommand
        { prompt := some "Hello", temperature := some (1 / 2), topP := some (1 / 10) }
      = buildPromptCommand
        { prompt := some "Hello", temperature := some (1 / 2), topP := some (9 / 10) } :=
  rfl

/-- Claim C7 as amended. Of the optional OpenAI-compatible fields, only
`temperature` is wired into the generation command built by the completion
route (`top_p` included, every other optional field is parsed and has no
effect on the command), and `temperature` itself is wired. -/
theorem only_temperature_wired_to_command :
    (∀ b1 b2 : CompletionRequest, b1.prompt = b2.prompt →
        b1.temperature = b2.temperature →
        buildPromptCommand b1 = buildPromptCommand b2) ∧
    buildPromptCommand { temperature := some 0 }
      ≠ buildPromptCommand { temperature := some 1 } := by
  constructor
  · intro b1 b2 h1 h2
    simp [buildPromptCommand, h1, h2]
  · intro h
    have := congrArg PromptCommand.temperature h
    norm_num [buildPromptCommand] at this

/-- Witness for the amended C7 theorem: two bodies agreeing on prompt and
temperature but differing in several ignored optional fields produce the
same command. -/
theorem only_temperature_wired_to_command_witness :
    buildPromptCommand { prompt := some "p", stream := some true, maxTokens := some 16 }
      = buildPromptCommand { prompt := some "p", bestOf := some 4, seed := some 42 } :=
  only_temperature_wired_to_command.1
    { prompt := some "p", stream := some true, maxTokens := some 16 }
    { prompt := some "p", bestOf := some 4, seed := some 42 } rfl rfl

/-- Claim C8, counterexample. The claim says `finish_reason` is present
only on the terminal event. In a two-event stream the first, non-terminal
event already carries `finish_reason: Some("stop")`
(`src/routes/completion.rs` line 65 sets it on every event). -/
theorem finish_reason_present_on_nonterminal_event :
    (sseStream (some "m") (fun _ => 0) ["a", "b"]).length = 2 ∧
    ((sseStream (some "m") (fun _ => 0) ["a", "b"]).map
        fun c => c.choices.map Choice.finishReason)
      = [[some "stop"], [some "stop"]] :=
  ⟨rfl, rfl⟩

/-- Claim C8 as amended. Every SSE event carries a completion envelope
whose single choice holds exactly the corresponding fragment as its text,
and every event — terminal or not — carries `finish_reason = "stop"`;
there is no event on which it is absent. -/
theorem sse_event_envelope_shape :
    ∀ (m : Option String) (createdAt : Nat → Nat) (frags : List String),
      ((sseStream m createdAt frags).map fun c => c.choices.map Choice.text)
          = frags.map (fun f => [f]) ∧
      ((sseStream m createdAt frags).map fun c => c.choices.map Choice.finishReason)
          = frags.map (fun _ => [some "stop"]) := by
  intro m createdAt frags
  exact sseStreamFrom_shape m createdAt frags 0

/-- Claim C9 (confirmed). The commit workflow validates the collected
message against the Conventional Commits regex of `src/main.rs` line 208;
the candidate "fx: typo" fails it and the candidate
"fix: correct off-by-one in parser" passes it; a failing first candidate
triggers exactly one retry at the strictly higher temperature 1.2 (the
first generation runs at 0.8) after which the workflow proceeds with the
second message regardless of its own validity, and a passing first
candidate triggers no retry. -/
theorem commit_message_validation_retry_once :
    isConventional "fx: typo" = false ∧
    isConventional "fix: correct off-by-one in parser" = true ∧
    retryCommitTemperature > firstCommitTemperature ∧
    (∀ gen : ℚ → List String,
        (commitWorkflow gen).2 ≤ 1 ∧
        ((commitWorkflow gen).2 = 0
            ↔ isConventional (collectMessage (gen firstCommitTemperature)) = true) ∧
        ((commitWorkflow gen).2 = 1
            → (commitWorkflow gen).1 = collectRaw (gen retryCommitTemperature))) ∧
    (commitWorkflow (fun _ => ["fx: typo"])).2 = 1 ∧
    (commitWorkflow (fun _ => ["fix: correct off-by-one in parser"])).2 = 0 := by
  refine ⟨by decide, by decide, ?_, ?_, by decide, by decide⟩
  · norm_num [retryCommitTemperature, firstCommitTemperature]
  · intro gen
    by_cases h : isConventional (collectMessage (gen firstCommitTemperature)) = true
    · simp [commitWorkflow, h]
    · simp [commitWorkflow, h]

/-- Claim C10 (confirmed). `token_to_text` is total — it returns a string
for every token id and tokenizer — and its value is as described: the
empty string when the tokenizer has no token for the id; the single ASCII
character when the token text has the byte form and the hex value is an
ASCII code point; otherwise the token text with every U+2581 replaced by a
space. -/
theorem token_to_text_total_and_cased :
    ∀ (idToToken : Nat → Option (List Char)) (tok : Nat),
      tokenToText idToToken tok = tokenToTextSpec idToToken tok := by
  intro f tok
  simp only [tokenToText, tokenToTextSpec]
  cases f tok with
  | none => rfl
  | some text =>
    simp only [byteParse_replace]

end Oxpilot
